import Mathlib

/-!
Verification of the content-parsing and metafield-planning core of the
aliexpress-scrapper repository.

The Python sources `generate_and_put_metafields.py` and
`convert_analisis_copywriting_to_json.py` are shallowly embedded here:
Python strings are modelled as `String` / `List Char`, Python `None` as
`Option.none`, Python dicts used as lookup tables as association lists or
functions into `Option`, and every regular expression of the source is
translated into an explicit character-level matcher implementing the same
leftmost-match / greedy / lazy semantics the `re` module gives to that
pattern on the inputs the program handles.
-/

set_option maxRecDepth 10000

namespace Axs

/-! Python string primitives, modelled on lists of characters. -/

/-- Whitespace characters recognised by Python `str.strip` and the regex
class used in the source patterns (ASCII range). -/
def isPyWs (c : Char) : Bool :=
  c = ' ' || c = '\t' || c = '\n' || c = '\r' || c = '\x0b' || c = '\x0c'

def isDigitC (c : Char) : Bool := ('0' ≤ c) && (c ≤ '9')

/-- ASCII lowercasing, as applied by `str.lower` on the inputs handled. -/
def lowerL (l : List Char) : List Char := l.map Char.toLower

/-- Python `str.strip`. -/
def stripL (l : List Char) : List Char :=
  ((l.dropWhile isPyWs).reverse.dropWhile isPyWs).reverse

def pyStripS (s : String) : String := String.mk (stripL s.data)

def pyLowerS (s : String) : String := String.mk (lowerL s.data)

/-- Python `str.splitlines` (line boundaries `\n`, `\r`, `\r\n`). -/
def splitlinesAux : List Char → List Char → List (List Char)
  | '\r' :: '\n' :: rest, acc => acc.reverse :: splitlinesAux rest []
  | '\n' :: rest, acc => acc.reverse :: splitlinesAux rest []
  | '\r' :: rest, acc => acc.reverse :: splitlinesAux rest []
  | c :: rest, acc => splitlinesAux rest (c :: acc)
  | [], acc => if acc.isEmpty then [] else [acc.reverse]

def splitlinesL (l : List Char) : List (List Char) := splitlinesAux l []

/-- Does `l` start with the pattern `pre`? (Python `str.startswith`.) -/
def startsWith2 : List Char → List Char → Bool
  | _, [] => true
  | [], _ :: _ => false
  | c :: l, p :: ps => c = p && startsWith2 l ps

/-- Does `l` contain `pat` as a contiguous run? (Python `in` on strings.) -/
def containsSub : List Char → List Char → Bool
  | [], pat => startsWith2 [] pat
  | c :: rest, pat => startsWith2 (c :: rest) pat || containsSub rest pat

theorem stripL_length_le (l : List Char) : (stripL l).length ≤ l.length := by
  unfold stripL
  calc ((l.dropWhile isPyWs).reverse.dropWhile isPyWs).reverse.length
      = ((l.dropWhile isPyWs).reverse.dropWhile isPyWs).length := by
        simp
    _ ≤ (l.dropWhile isPyWs).reverse.length := (List.dropWhile_suffix isPyWs).length_le
    _ = (l.dropWhile isPyWs).length := by simp
    _ ≤ l.length := (List.dropWhile_suffix isPyWs).length_le

/-! Rich-text encoder (`markdown_to_rich_text_json` and the
multi-paragraph variant of `generate_and_put_metafields.py`). -/

/-- One text node of the rich-text document (`{"type": "text", ...}`);
the source only ever sets `"bold": true`, so an unset flag is `false`. -/
structure TextSpan where
  value : String
  bold : Bool
deriving DecidableEq, Repr

/-- The rich-text document: one root holding paragraphs of text spans. -/
structure RtDoc where
  children : List (List TextSpan)
deriving DecidableEq, Repr

/-- Splitting on the captured token of `re.split(r"(\*\*)", line)`: the
segments between successive non-overlapping occurrences of two stars
(fuelled by the input length to stay structural). -/
def splitBoldAux : Nat → List Char → List Char → List (List Char)
  | 0, l, acc => [acc.reverse ++ l]
  | fuel + 1, l, acc =>
    match l with
    | [] => [acc.reverse]
    | [c] => [(c :: acc).reverse]
    | c1 :: c2 :: rest =>
      if c1 = '*' && c2 = '*' then acc.reverse :: splitBoldAux fuel rest []
      else splitBoldAux fuel (c2 :: rest) (c1 :: acc)

def splitBold (l : List Char) : List (List Char) :=
  splitBoldAux (l.length + 1) l []

/-- Does the list contain two adjacent stars (a bold marker)? -/
def hasBoldTok (l : List Char) : Bool := containsSub l ('*' :: '*' :: [])

/-- The loop body of the encoder: segments alternate with stars tokens,
so the bold flag of segment `i` toggles at each boundary; empty segments
produce no node. -/
def spansOf : Bool → List (List Char) → List TextSpan
  | _, [] => []
  | bold, seg :: rest =>
    if seg.isEmpty then spansOf (!bold) rest
    else ⟨String.mk seg, bold⟩ :: spansOf (!bold) rest

/-- Normalisation done at the top of the encoder: remove `\r`, turn `\n`
into spaces, strip. -/
def rtNormLine (s : String) : List Char :=
  stripL ((s.data.filter (fun c => c ≠ '\r')).map (fun c => if c = '\n' then ' ' else c))

/-- Embedding of `markdown_to_rich_text_json`. -/
def markdown_to_rich_text_json (text : String) : RtDoc :=
  ⟨[spansOf false (splitBold (rtNormLine text))]⟩

/-- Splitting on `re.split(r"\n{2,}", ...)`: a separator is a maximal run
of two or more newlines. The fuel argument only bounds the recursion (one
unit per consumed character) so that the definition stays structural;
callers pass the input length plus one, which can never run out. -/
def paraSplitAux : Nat → List Char → List Char → List (List Char)
  | 0, _, acc => [acc.reverse]
  | fuel + 1, l, acc =>
    match l with
    | '\n' :: '\n' :: rest =>
      acc.reverse :: paraSplitAux fuel (rest.dropWhile (fun c => c = '\n')) []
    | c :: rest => paraSplitAux fuel rest (c :: acc)
    | [] => [acc.reverse]

/-- Paragraph candidates: split the cleaned, stripped text on double
newlines, strip each part, drop empties. -/
def mdParas (text : String) : List (List Char) :=
  (paraSplitAux (text.data.length + 1) (stripL (text.data.filter (fun c => c ≠ '\r'))) []).filterMap
    (fun p => let q := stripL p; if q.isEmpty then none else some q)

/-- Splitting on `re.split(r"(?<=[\.!?])\s+", ...)`: a separator is a
maximal whitespace run whose preceding character is `.`, `!` or `?`. -/
def sentSplitAux : Nat → Char → List Char → List Char → List (List Char)
  | 0, _, _, acc => [acc.reverse]
  | fuel + 1, prev, l, acc =>
    match l with
    | c :: rest =>
      if isPyWs c && (prev = '.' || prev = '!' || prev = '?') then
        acc.reverse :: sentSplitAux fuel ' ' (rest.dropWhile isPyWs) []
      else
        sentSplitAux fuel c rest (c :: acc)
    | [] => [acc.reverse]

/-- Sentence-like units of one paragraph, stripped, empties dropped. -/
def sentencesOf (p : List Char) : List (List Char) :=
  (sentSplitAux (p.length + 1) ' ' p []).filterMap
    (fun s => let q := stripL s; if q.isEmpty then none else some q)

/-- Per-paragraph span construction (newlines collapsed to spaces, then
the bold-marker split). -/
def paraSpans (p : List Char) : List TextSpan :=
  spansOf false (splitBold (p.map (fun c => if c = '\n' then ' ' else c)))

/-- Embedding of `markdown_to_rich_text_json_paragraphs`. -/
def markdown_to_rich_text_json_paragraphs (text : String) (enforce_two : Bool) : RtDoc :=
  let paras0 := mdParas text
  let paras :=
    if enforce_two && decide (paras0.length < 2) && !paras0.isEmpty then
      match paras0 with
      | p :: _ =>
        let sents := sentencesOf p
        if 2 ≤ sents.length then
          let mid := max 1 (sents.length / 2)
          [List.intercalate [' '] (sents.take mid), List.intercalate [' '] (sents.drop mid)]
        else paras0
      | [] => paras0
    else paras0
  let children := paras.map paraSpans
  if children.isEmpty then ⟨[[⟨"", false⟩]]⟩ else ⟨children⟩

/-! Compact JSON serialisation (`json.dumps(..., separators=(",", ":"))`
with the default `ensure_ascii=True`), applied to rich-text documents. -/

def hexDigit (n : Nat) : Char :=
  if n < 10 then Char.ofNat (48 + n) else Char.ofNat (87 + n)

def hex4 (n : Nat) : List Char :=
  [hexDigit (n / 4096 % 16), hexDigit (n / 256 % 16), hexDigit (n / 16 % 16), hexDigit (n % 16)]

/-- JSON escape of one character, matching `json.dumps` with ASCII output. -/
def escChar (c : Char) : List Char :=
  if c = '"' then ['\\', '"']
  else if c = '\\' then ['\\', '\\']
  else if c = '\n' then ['\\', 'n']
  else if c = '\r' then ['\\', 'r']
  else if c = '\t' then ['\\', 't']
  else if c = '\x08' then ['\\', 'b']
  else if c = '\x0c' then ['\\', 'f']
  else if c.toNat < 0x20 then '\\' :: 'u' :: hex4 c.toNat
  else if c.toNat < 0x7f then [c]
  else if c.toNat ≤ 0xffff then '\\' :: 'u' :: hex4 c.toNat
  else
    let v := c.toNat - 0x10000
    ('\\' :: 'u' :: hex4 (0xd800 + v / 1024)) ++ ('\\' :: 'u' :: hex4 (0xdc00 + v % 1024))

def jsonStr (s : String) : String :=
  String.mk ('"' :: (s.data.flatMap escChar) ++ ['"'])

def spanJson (sp : TextSpan) : String :=
  "\x7b\"type\":\"text\",\"value\":" ++ jsonStr sp.value ++
    (if sp.bold then ",\"bold\":true\x7d" else "\x7d")

def paraJson (spans : List TextSpan) : String :=
  "\x7b\"type\":\"paragraph\",\"children\":[" ++
    String.intercalate "," (spans.map spanJson) ++ "]\x7d"

/-- Embedding of `json.dumps(rtf, separators=(",", ":"))` on the
rich-text structure built by the encoders. -/
def dumpsRtf (d : RtDoc) : String :=
  "\x7b\"type\":\"root\",\"children\":[" ++
    String.intercalate "," (d.children.map paraJson) ++ "]\x7d"

/-! Field normalizer (`normalize_numeric` and `ABSENCE_PHRASES`). -/

/-- The absence phrases of the source, already lower-case there. -/
def ABSENCE_PHRASES : List String :=
  ["no observado en imágenes", "no disponible", "no disponible en imágenes", "sin dato"]

/-- Maximal digit run. -/
def digitRun (l : List Char) : List Char := l.takeWhile isDigitC

/-- Matching `\d+(?:[\.,]\d+)?` at the head of the list. -/
def matchNumCore (l : List Char) : Option (List Char) :=
  let d := digitRun l
  if d.isEmpty then none
  else
    match l.drop d.length with
    | sep :: rest =>
      if (sep = '.' || sep = ',') && !(digitRun rest).isEmpty then
        some (d ++ sep :: digitRun rest)
      else some d
    | [] => some d

/-- Matching `-?\d+(?:[\.,]\d+)?` at the head of the list. -/
def matchNumAt (l : List Char) : Option (List Char) :=
  match l with
  | '-' :: rest =>
    match matchNumCore rest with
    | some tok => some ('-' :: tok)
    | none => matchNumCore l
  | _ => matchNumCore l

/-- Leftmost search for the numeric token (`re.search` semantics). -/
def searchNum : List Char → Option (List Char)
  | [] => none
  | c :: rest =>
    match matchNumAt (c :: rest) with
    | some tok => some tok
    | none => searchNum rest

def natOfDigits (l : List Char) : Nat :=
  l.foldl (fun a c => a * 10 + (c.toNat - 48)) 0

/-- Rendering `str(int(float(num)))` for a matched token: drop the
fractional part (truncation toward zero) and print the integer. The
source goes through a float; on the magnitudes this program handles
that conversion is exact, so it is modelled as exact truncation. -/
def intRender (tok : List Char) : String :=
  let neg := startsWith2 tok ['-']
  let digits := digitRun (if neg then tok.drop 1 else tok)
  let n := natOfDigits digits
  if n = 0 then "0" else (if neg then "-" else "") ++ Nat.repr n

/-- Embedding of `normalize_numeric`. -/
def normalize_numeric (value : Option String) (integer : Bool) : Option String :=
  match value with
  | none => none
  | some s =>
    let v := pyLowerS (pyStripS s)
    if v = "" || ABSENCE_PHRASES.contains v then none
    else
      match searchNum v.data with
      | none => none
      | some tok =>
        let num := tok.map (fun c => if c = ',' then '.' else c)
        if integer then some (intRender num) else some (String.mk num)

/-! Markdown section split of `parse_openai_markdown`: the MULTILINE
regex `^###\s+(\d+)\.\s+([^\n]+)\n` located with `finditer`, and the
section bodies `content_md[start : next_start]`. -/

/-- Matching the tail `\s+[^\n]+\n` of the heading pattern. `k` is the
candidate length of the `\s+` group, tried greedily from the maximal
whitespace run length down to `1` (backtracking of the regex engine). -/
def matchTailFrom (R : List Char) : Nat → Option (List Char)
  | 0 => none
  | k + 1 =>
    if ((R.drop (k + 1)).takeWhile (fun c => c ≠ '\n')).isEmpty then matchTailFrom R k
    else
      match (R.drop (k + 1)).drop ((R.drop (k + 1)).takeWhile (fun c => c ≠ '\n')).length with
      | '\n' :: r => some r
      | _ => matchTailFrom R k

theorem matchTailFrom_suffix (R : List Char) :
    ∀ k r, matchTailFrom R k = some r → r <:+ R := by
  intro k
  induction k with
  | zero => intro r h; simp [matchTailFrom] at h
  | succ k ih =>
    intro r h
    unfold matchTailFrom at h
    split at h
    · exact ih r h
    · split at h
      · rename_i x0 r2 heq
        injection h with h3
        subst h3
        have h2 : '\n' :: r2 <:+ R.drop (k + 1) := by
          rw [← heq]; exact List.drop_suffix _ _
        exact ((List.suffix_cons '\n' r2).trans h2).trans (List.drop_suffix _ _)
      · exact ih r h

/-- Length of the whitespace run opening the heading tail. -/
def hwsLen (rest : List Char) : Nat := (rest.takeWhile isPyWs).length

/-- The digit group `(\d+)` after that whitespace run. -/
def hDigits (rest : List Char) : List Char :=
  (rest.drop (hwsLen rest)).takeWhile isDigitC

/-- What follows the digit group. -/
def hAfterDigits (rest : List Char) : List Char :=
  (rest.drop (hwsLen rest)).drop (hDigits rest).length

/-- Matching `\s+(\d+)\.\s+([^\n]+)\n` (the heading pattern after the
three hashes): returns the digit group and what follows the whole match.
The captured title is never read downstream, so it is not returned. -/
def matchHeadingTail (rest : List Char) : Option (List Char × List Char) :=
  if hwsLen rest = 0 then none
  else if (hDigits rest).isEmpty then none
  else
    match hAfterDigits rest with
    | '.' :: r2 =>
      match matchTailFrom r2 ((r2.takeWhile isPyWs).length) with
      | some r3 => some (hDigits rest, r3)
      | none => none
    | _ => none

/-- Matching `###\s+(\d+)\.\s+([^\n]+)\n` at the head of `l`. -/
def matchHeadingAt (l : List Char) : Option (List Char × List Char) :=
  match l with
  | '#' :: '#' :: '#' :: rest => matchHeadingTail rest
  | _ => none

theorem matchHeadingTail_suffix (rest ds r : List Char)
    (h : matchHeadingTail rest = some (ds, r)) : r <:+ rest := by
  unfold matchHeadingTail at h
  split at h
  · simp at h
  · split at h
    · simp at h
    · split at h
      · rename_i r2 heq
        split at h
        · rename_i r3 heq3
          simp only [Option.some.injEq, Prod.mk.injEq] at h
          obtain ⟨h5, h6⟩ := h
          have h7 : r3 <:+ r2 := matchTailFrom_suffix r2 _ r3 heq3
          have h8 : '.' :: r2 <:+ rest := by
            rw [← heq]
            exact (List.drop_suffix _ _).trans (List.drop_suffix _ _)
          rw [← h6]
          exact h7.trans ((List.suffix_cons '.' r2).trans h8)
        · simp at h
      · simp at h

theorem matchHeadingAt_shape (l : List Char) (ds r : List Char)
    (h : matchHeadingAt l = some (ds, r)) :
    ∃ rest, l = '#' :: '#' :: '#' :: rest ∧ r <:+ rest := by
  unfold matchHeadingAt at h
  split at h
  · rename_i rest0
    exact ⟨rest0, rfl, matchHeadingTail_suffix rest0 ds r h⟩
  · simp at h

theorem matchHeadingAt_length (l : List Char) (ds r : List Char)
    (h : matchHeadingAt l = some (ds, r)) : r.length + 3 ≤ l.length := by
  obtain ⟨rest, h1, h2⟩ := matchHeadingAt_shape l ds r h
  have h3 := h2.length_le
  subst h1
  simp only [List.length_cons]
  omega

/-- All heading matches of the document, with their start offsets, in
order (`finditer` over the MULTILINE pattern): positions are tried left
to right, the anchor holding at offset 0 and right after each newline,
and scanning resumes after each match. -/
def findHeadingsAux : Nat → List Char → Nat → Bool → List (Nat × List Char)
  | 0, _, _, _ => []
  | fuel + 1, rem, pos, atStart =>
    match (if atStart then matchHeadingAt rem else none) with
    | some (ds, rest) =>
      (pos, ds) :: findHeadingsAux fuel rest (pos + (rem.length - rest.length)) true
    | none =>
      match rem with
      | [] => []
      | c :: r => findHeadingsAux fuel r (pos + 1) (decide (c = '\n'))

def findHeadings (cs : List Char) : List (Nat × List Char) :=
  findHeadingsAux (cs.length + 1) cs 0 true

/-- Building `sections`: body of each heading runs from its own match
start to the next match start (sentinel: end of document). -/
def buildSecs (cs : List Char) : List (Nat × List Char) → List (String × List Char)
  | [] => []
  | (p, ds) :: rest =>
    (String.mk ds,
      (cs.drop p).take ((match rest with
        | (q, _) :: _ => q
        | [] => cs.length) - p)) :: buildSecs cs rest

def sectionsOf (cs : List Char) : List (String × List Char) :=
  buildSecs cs (findHeadings cs)

/-- Python `sections.get(num, {}).get("body", "")` under dict-assignment
semantics (a repeated section number overwrites: the last wins). -/
def secGet (secs : List (String × List Char)) (k : String) : List Char :=
  ((secs.reverse).lookup k).getD []

/-- Concatenation of all recorded section bodies, in order. -/
def joinBodies (secs : List (String × List Char)) : List Char :=
  secs.foldr (fun s acc => s.2 ++ acc) []

/-! Per-section extractors of `parse_openai_markdown`. -/

/-- Section 1: every line whose stripped form starts with a dash-space
bullet contributes its remainder, re-stripped. -/
def bulletsOfBody (sec1 : List Char) : List String :=
  (splitlinesL sec1).filterMap (fun line =>
    if startsWith2 (stripL line) (("- ").data) then
      some (String.mk (stripL ((stripL line).drop 2)))
    else none)

/-- Matching the FAQ block separator `\n-\s+\*\*` at the head of `l`. -/
def matchFaqSep (l : List Char) : Option (List Char) :=
  match l with
  | '\n' :: '-' :: rest =>
    if (rest.takeWhile isPyWs).isEmpty then none
    else
      match rest.drop (rest.takeWhile isPyWs).length with
      | '*' :: '*' :: r => some r
      | _ => none
  | _ => none

/-- Splitting section 2 on the separator (`re.split`), fuelled. -/
def splitFaqBlocksAux : Nat → List Char → List Char → List (List Char)
  | 0, _, acc => [acc.reverse]
  | fuel + 1, l, acc =>
    match matchFaqSep l with
    | some r => acc.reverse :: splitFaqBlocksAux fuel r []
    | none =>
      match l with
      | [] => [acc.reverse]
      | c :: rest => splitFaqBlocksAux fuel rest (c :: acc)

def splitFaqBlocks (l : List Char) : List (List Char) :=
  splitFaqBlocksAux (l.length + 1) l []

/-- Index of the last newline of `w` (meaningful when `w` has one). -/
def idxOfLastNl (w : List Char) : Nat :=
  w.length - 1 - (w.reverse.findIdx (fun c => c = '\n'))

/-- Matching `\*\*\s*\n` at the head: the greedy `\s*` backtracks so the
separator ends at the last newline inside the whitespace run. -/
def matchStratA (l : List Char) : Option (List Char) :=
  match l with
  | '*' :: '*' :: rest =>
    if (rest.takeWhile isPyWs).contains '\n' then
      some (rest.drop (idxOfLastNl (rest.takeWhile isPyWs) + 1))
    else none
  | _ => none

/-- Matching `\*\*\s*[:\-–—]\s*` at the head of `l`. -/
def matchStratB (l : List Char) : Option (List Char) :=
  match l with
  | '*' :: '*' :: rest =>
    match rest.drop (rest.takeWhile isPyWs).length with
    | c :: r2 =>
      if c = ':' || c = '-' || c = '–' || c = '—' then some (r2.dropWhile isPyWs)
      else none
    | [] => none
  | _ => none

/-- Matching `\*\*\s+` at the head of `l`. -/
def matchStratC (l : List Char) : Option (List Char) :=
  match l with
  | '*' :: '*' :: rest =>
    if (rest.takeWhile isPyWs).isEmpty then none
    else some (rest.dropWhile isPyWs)
  | _ => none

/-- Leftmost search applying matcher `f`: returns what follows the first
match (`re.split(..., maxsplit=1)` keeps exactly that remainder). -/
def scanFor (f : List Char → Option (List Char)) : List Char → Option (List Char)
  | [] => f []
  | c :: rest =>
    match f (c :: rest) with
    | some r => some r
    | none => scanFor f rest

/-- Answer extraction for one FAQ block: the three splitting strategies
tried in order, the whole block as fallback. -/
def answerOfBlock (blk : List Char) : List Char :=
  match scanFor matchStratA blk with
  | some r => r
  | none =>
    match scanFor matchStratB blk with
    | some r => r
    | none =>
      match scanFor matchStratC blk with
      | some r => r
      | none => blk

/-- Whitespace-run collapsing of `re.sub(r"\s+", " ", ...)`. -/
def collapseWsAux : Bool → List Char → List Char
  | _, [] => []
  | prevWs, c :: rest =>
    if isPyWs c then
      if prevWs then collapseWsAux true rest
      else ' ' :: collapseWsAux true rest
    else c :: collapseWsAux false rest

def collapseWs (l : List Char) : List Char := collapseWsAux false l

/-- Section 2: blocks after the preamble, each reduced to its cleaned
answer, empty answers dropped. -/
def faqAnswersOfBody (sec2 : List Char) : List String :=
  ((splitFaqBlocks sec2).drop 1).filterMap (fun blk =>
    if (stripL (collapseWs (answerOfBlock blk))).isEmpty then none
    else some (String.mk (stripL (collapseWs (answerOfBlock blk)))))

/-! Section 3 detail lines. -/

/-- The trailing `\s*(.+)$` of the detail and title patterns: on a line
remainder `R`, the greedy `\s*` takes the whitespace run unless the rest
would be empty, in which case it backs off one character. -/
def tailExtract (R : List Char) : Option (List Char) :=
  match R with
  | [] => none
  | _ :: _ =>
    if (R.takeWhile isPyWs).length = R.length then some (R.drop (R.length - 1))
    else some (R.drop (R.takeWhile isPyWs).length)

/-- The lazy group of `([^*]+?):\*\*`: the shortest nonempty star-free
prefix followed by a colon and a closing bold marker. -/
def lazyKeyColon : List Char → List Char → Option (List Char × List Char)
  | acc, ':' :: '*' :: '*' :: r =>
    if acc.isEmpty then none else some (acc.reverse, r)
  | acc, c :: rest =>
    if c = '*' then none else lazyKeyColon (c :: acc) rest
  | _, [] => none

/-- Matching `^-\s+\*\*([^*]+?):\*\*\s*(.+)$` on a stripped line. -/
def detailLine1 (s : List Char) : Option (List Char × List Char) :=
  match s with
  | '-' :: rest =>
    if (rest.takeWhile isPyWs).isEmpty then none
    else
      match rest.drop (rest.takeWhile isPyWs).length with
      | '*' :: '*' :: r =>
        match lazyKeyColon [] r with
        | some (g, r2) => (tailExtract r2).map (fun v => (g, v))
        | none => none
      | _ => none
  | _ => none

/-- Matching `^-\s+\*\*([^:*]+)\*\*:\s*(.+)$` on a stripped line. -/
def detailLine2 (s : List Char) : Option (List Char × List Char) :=
  match s with
  | '-' :: rest =>
    if (rest.takeWhile isPyWs).isEmpty then none
    else
      match rest.drop (rest.takeWhile isPyWs).length with
      | '*' :: '*' :: r =>
        if (r.takeWhile (fun c => c ≠ ':' && c ≠ '*')).isEmpty then none
        else
          match r.drop (r.takeWhile (fun c => c ≠ ':' && c ≠ '*')).length with
          | '*' :: '*' :: ':' :: r2 =>
            (tailExtract r2).map (fun v => (r.takeWhile (fun c => c ≠ ':' && c ≠ '*'), v))
          | _ => none
      | _ => none
  | _ => none

/-- Python dict assignment `details[key] = val` (observed only through
`get`, so modelled as append with a last-wins lookup). -/
def dput (d : List (String × String)) (k v : String) : List (String × String) :=
  d ++ [(k, v)]

def dget (d : List (String × String)) (k : String) : Option String :=
  (d.reverse).lookup k

/-- Section 3: key-value detail lines, first colon placement preferred. -/
def detailsOfBody (sec3 : List Char) : List (String × String) :=
  (splitlinesL sec3).foldl (fun d line =>
    match detailLine1 (stripL line) with
    | some (g, v) => dput d (String.mk (lowerL (stripL g))) (String.mk (stripL v))
    | none =>
      match detailLine2 (stripL line) with
      | some (g, v) => dput d (String.mk (lowerL (stripL g))) (String.mk (stripL v))
      | none => d) []

/-! Section 4: the video title/body line scan. -/

/-- Matching `\*\*[Tt]itle` at this position (case-sensitive tail, as in
the gating `re.search` of the source). -/
def isTitleOpenAt (l : List Char) : Bool :=
  match l with
  | '*' :: '*' :: t :: r => (t = 'T' || t = 't') && startsWith2 r (("itle").data)
  | _ => false

/-- Boolean leftmost search with a per-position predicate. -/
def scanBool (f : List Char → Bool) : List Char → Bool
  | [] => f []
  | c :: rest => f (c :: rest) || scanBool f rest

/-- The gate `re.search(r"\*\*[Tt]itle", line)`. -/
def gateTitle (l : List Char) : Bool := scanBool isTitleOpenAt l

/-- Matching `\*\*[Tt]itle[^:]*:\*\*\s*(.+)$` (IGNORECASE) here. -/
def matchTitle1At (l : List Char) : Option (List Char) :=
  match l with
  | '*' :: '*' :: t :: r =>
    if (t = 'T' || t = 't') && startsWith2 (lowerL (r.take 4)) (("itle").data) then
      match (r.drop 4).drop ((r.drop 4).takeWhile (fun c => c ≠ ':')).length with
      | ':' :: '*' :: '*' :: r2 => tailExtract r2
      | _ => none
    else none
  | _ => none

/-- Matching `\*\*[Tt]itle\*\*\s*:\s*(.+)$` (IGNORECASE) here. -/
def matchTitle2At (l : List Char) : Option (List Char) :=
  match l with
  | '*' :: '*' :: t :: r =>
    if (t = 'T' || t = 't') && startsWith2 (lowerL (r.take 4)) (("itle").data) then
      match r.drop 4 with
      | '*' :: '*' :: r2 =>
        match r2.drop (r2.takeWhile isPyWs).length with
        | ':' :: r3 => tailExtract r3
        | _ => none
      | _ => none
    else none
  | _ => none

/-- All characters whitespace? (the trailing `\s*$` on a line). -/
def allPyWs (l : List Char) : Bool := l.all isPyWs

/-- The lazy group of `^-\s+\*\*(.+?)\*\*\s*$` after its opening bold:
grow the group one character at a time until a closing bold marker
followed only by whitespace is reached. Fuelled to stay structural. -/
def lazyBoldClose : Nat → List Char → List Char → Option (List Char)
  | 0, _, _ => none
  | fuel + 1, acc, l =>
    match l with
    | '*' :: '*' :: r =>
      if !acc.isEmpty && allPyWs r then some acc.reverse
      else lazyBoldClose fuel ('*' :: acc) ('*' :: r)
    | c :: rest =>
      if c = '\n' then none else lazyBoldClose fuel (c :: acc) rest
    | [] => none

/-- Matching `^-\s+\*\*(.+?)\*\*\s*$` on a stripped line. -/
def boldOnlyMatch (s : List Char) : Option (List Char) :=
  match s with
  | '-' :: rest =>
    if (rest.takeWhile isPyWs).isEmpty then none
    else
      match rest.drop (rest.takeWhile isPyWs).length with
      | '*' :: '*' :: r => lazyBoldClose (2 * r.length + 2) [] r
      | _ => none
  | _ => none

/-- One reserved word (`(?i)(body|title|título|video):`) starting here
(the scrutinee is already lowercased). -/
def reservedAt (l : List Char) : Bool :=
  startsWith2 l (("body:").data) || startsWith2 l (("title:").data) ||
    startsWith2 l (("título:").data) || startsWith2 l (("video:").data)

def reservedWord (g : List Char) : Bool := scanBool reservedAt (lowerL g)

/-- Matching `^\*\*[Bb]ody[^*]*\*\*` at the start of `l`. -/
def bodyMarkerAt (l : List Char) : Bool :=
  match l with
  | '*' :: '*' :: b :: r =>
    if (b = 'B' || b = 'b') && startsWith2 r (("ody").data) then
      startsWith2 ((r.drop 3).drop ((r.drop 3).takeWhile (fun c => c ≠ '*')).length)
        (("**").data)
    else false
  | _ => false

/-- Matching `\*\*[Tt]itle[^*]*\*\*` at this position (case-sensitive,
as in the defensive body filters of the source). -/
def titleMarkerAt (l : List Char) : Bool :=
  match l with
  | '*' :: '*' :: t :: r =>
    if (t = 'T' || t = 't') && startsWith2 r (("itle").data) then
      startsWith2 ((r.drop 4).drop ((r.drop 4).takeWhile (fun c => c ≠ '*')).length)
        (("**").data)
    else false
  | _ => false

/-- Matching `\*\*[Vv]ideo[^*]*\*\*` at this position. -/
def videoMarkerAt (l : List Char) : Bool :=
  match l with
  | '*' :: '*' :: v :: r =>
    if (v = 'V' || v = 'v') && startsWith2 r (("ideo").data) then
      startsWith2 ((r.drop 4).drop ((r.drop 4).takeWhile (fun c => c ≠ '*')).length)
        (("**").data)
    else false
  | _ => false

def filterTitle (c : List Char) : Bool := scanBool titleMarkerAt c

def filterVideo (c : List Char) : Bool := scanBool videoMarkerAt c

/-- The bullet-layer stripping loop
`while content.startswith('- '): content = content[2:].strip()`. -/
def stripDashes : Nat → List Char → List Char
  | 0, l => l
  | fuel + 1, l =>
    match l with
    | '-' :: ' ' :: r => stripDashes fuel (stripL r)
    | _ => l

/-- The mutable scan state of the section-4 loop. -/
structure VState where
  title : Option (List Char)
  flag : Bool
  body : List (List Char)
deriving DecidableEq, Repr

/-- Appending a candidate body line after the defensive filters. -/
def vBodyAppend (st : VState) (content : List Char) : VState :=
  if content.isEmpty then st
  else if filterTitle content || filterVideo content || bodyMarkerAt content then st
  else { st with body := st.body ++ [content] }

/-- One line of the section-4 scan. -/
def videoStep (st : VState) (line : List Char) : VState :=
  if startsWith2 (stripL line) (("###").data) then st
  else if startsWith2 (stripL line) (("- ").data) then
    if gateTitle (stripL line) then
      match (match scanFor matchTitle1At (stripL line) with
             | some r => some r
             | none => scanFor matchTitle2At (stripL line)) with
      | some r => { st with title := some (stripL r), flag := true }
      | none => st
    else
      match boldOnlyMatch (stripL line) with
      | some g =>
        if !st.flag then
          if reservedWord (stripL g) then st
          else { st with title := some (stripL g), flag := true }
        else
          if bodyMarkerAt (stripL line) then st
          else vBodyAppend st (stripDashes ((stripL line).length + 1) (stripL line))
      | none =>
        if bodyMarkerAt (stripL line) then st
        else vBodyAppend st (stripDashes ((stripL line).length + 1) (stripL line))
  else
    if (stripL line).isEmpty then st
    else vBodyAppend st (stripL line)

def videoScan (sec4 : List Char) : VState :=
  (splitlinesL sec4).foldl videoStep ⟨none, false, []⟩

def joinNl (ls : List (List Char)) : List Char := List.intercalate (("\n").data) ls

/-- Section 4 results: the captured title and the body lines joined with
newlines and stripped (`None` when no line was captured). -/
def videoOfBody (sec4 : List Char) : Option String × Option String :=
  (((videoScan sec4).title).map String.mk,
   if (videoScan sec4).body.isEmpty then none
   else some (String.mk (stripL (joinNl (videoScan sec4).body))))

/-! The full Markdown parser. -/

/-- The structured result of `parse_openai_markdown`. -/
structure Parsed where
  bullets : List String
  faq_answers : List String
  details : List (String × String)
  video_title : Option String
  video_body : Option String
deriving DecidableEq, Repr

def parseSecs (secs : List (String × List Char)) : Parsed :=
  { bullets := bulletsOfBody (secGet secs "1")
    faq_answers := faqAnswersOfBody (secGet secs "2")
    details := detailsOfBody (secGet secs "3")
    video_title := (videoOfBody (secGet secs "4")).1
    video_body := (videoOfBody (secGet secs "4")).2 }

/-- Embedding of `parse_openai_markdown`. -/
def parse_openai_markdown (content_md : String) : Parsed :=
  parseSecs (sectionsOf content_md.data)

/-! Metafield update planner (`generate_put_updates` and
`build_missing_metafields_inputs`). -/

/-- The remote identifier map `key -> id`, an opaque lookup table. -/
def IdsMap : Type := String → Option Nat

/-- A concrete identifier map given by an association list. -/
def mapOf (l : List (String × Nat)) : IdsMap := fun k => l.lookup k

/-- One REST update instruction. -/
structure Update where
  id : Nat
  value : String
  value_type : String
deriving DecidableEq, Repr

/-- One GraphQL `metafieldsSet` creation input. -/
structure CreateInput where
  ownerId : String
  nameSpace : String
  key : String
  type : String
  value : String
deriving DecidableEq, Repr

/-- The loop body shared by the bullet and FAQ blocks of the update
branch: when the parsed value is present (`idx < len`) and the key is in
the identifier map, exactly one instruction is appended. -/
def updPiece {α : Type} (X : Option α) (Y : Option Nat) (f : α → String) (t : String) :
    Option Update :=
  match X with
  | some b =>
    match Y with
    | some i => some ⟨i, f b, t⟩
    | none => none
  | none => none

/-- The block body that checks the identifier map first (numeric, scale
and video blocks of the update branch). -/
def updPieceK (Y : Option Nat) (V : Option String) (t : String) : Option Update :=
  match Y with
  | some i =>
    match V with
    | some v => some ⟨i, v, t⟩
    | none => none
  | none => none

/-- The loop body shared by the bullet and FAQ blocks of the create
branch: the key must be absent from the map and the value present. -/
def createPiece {α : Type} (gid : String) (Y : Option Nat) (X : Option α)
    (key : String) (ty : String) (f : α → String) : Option CreateInput :=
  match Y with
  | some _ => none
  | none =>
    match X with
    | some b => some ⟨gid, "custom", key, ty, f b⟩
    | none => none

def vinetaKey (idx : Nat) : String := "vineta_" ++ Nat.repr (idx + 1)

def faqKey (idx : Nat) : String := "faq_" ++ Nat.repr (idx + 2)

/-- The bullet block of the update branch (`for idx in range(5)`). -/
def vinetaUpdates (ids_map : IdsMap) (parsed : Parsed) : List Update :=
  (List.range 5).filterMap (fun idx =>
    updPiece parsed.bullets[idx]? (ids_map (vinetaKey idx))
      (fun b => dumpsRtf (markdown_to_rich_text_json b)) "json_string")

/-- The FAQ block of the update branch (`for idx in range(3)`). -/
def faqUpdates (ids_map : IdsMap) (parsed : Parsed) : List Update :=
  (List.range 3).filterMap (fun idx =>
    updPiece parsed.faq_answers[idx]? (ids_map (faqKey idx))
      (fun a => dumpsRtf (markdown_to_rich_text_json a)) "json_string")

/-- The numeric-detail block, iterating `mapping_numeric` in insertion
order with its `(integer?, value_type)` pairs. -/
def numericUpdates (ids_map : IdsMap) (parsed : Parsed) : List Update :=
  ([("ancho", false, "string"), ("longitud", false, "string"),
    ("alto", false, "string"), ("piezas", true, "integer")]
      : List (String × Bool × String)).filterMap (fun fv =>
    updPieceK (ids_map fv.1) (normalize_numeric (dget parsed.details fv.1) fv.2.1) fv.2.2)

/-- The scale guard `escala_val and escala_val.strip().lower() not in
ABSENCE_PHRASES` (the value is a nonempty string and not an absence
phrase). -/
def escalaOk (ev : String) : Bool :=
  !(ev = "") && !(ABSENCE_PHRASES.contains (pyLowerS (pyStripS ev)))

/-- The scale value after the truthiness and absence-phrase guard of the
source (`if escala_val and ... not in ABSENCE_PHRASES`). -/
def escalaValue (parsed : Parsed) : Option String :=
  match dget parsed.details "escala" with
  | some ev => if escalaOk ev then some (pyStripS ev) else none
  | none => none

/-- The video-title value after the truthiness guard. -/
def titleValue (parsed : Parsed) : Option String :=
  match parsed.video_title with
  | some t => if t = "" then none else some (pyStripS t)
  | none => none

/-- The video-body value after the truthiness guard (two-paragraph rich
text, serialised). -/
def bodyValue (parsed : Parsed) : Option String :=
  match parsed.video_body with
  | some b =>
    if b = "" then none
    else some (dumpsRtf (markdown_to_rich_text_json_paragraphs b true))
  | none => none

/-- The scale block: raw value, truthiness plus absence-phrase filter. -/
def escalaUpdates (ids_map : IdsMap) (parsed : Parsed) : List Update :=
  (updPieceK (ids_map "escala") (escalaValue parsed) "string").toList

/-- The video-title block (`if ... and parsed.get("video_title")`). -/
def titleUpdates (ids_map : IdsMap) (parsed : Parsed) : List Update :=
  (updPieceK (ids_map "sec5_title") (titleValue parsed) "string").toList

/-- The video-body block (two-paragraph rich text). -/
def bodyUpdates (ids_map : IdsMap) (parsed : Parsed) : List Update :=
  (updPieceK (ids_map "sec5_body") (bodyValue parsed) "json_string").toList

/-- Embedding of `generate_put_updates`. -/
def generate_put_updates (ids_map : IdsMap) (parsed : Parsed) : List Update :=
  vinetaUpdates ids_map parsed ++ faqUpdates ids_map parsed ++
    numericUpdates ids_map parsed ++ escalaUpdates ids_map parsed ++
    titleUpdates ids_map parsed ++ bodyUpdates ids_map parsed

/-- The bullet block of the create branch. -/
def vinetaInputs (gid : String) (ids_map : IdsMap) (parsed : Parsed) : List CreateInput :=
  (List.range 5).filterMap (fun idx =>
    createPiece gid (ids_map (vinetaKey idx)) parsed.bullets[idx]? (vinetaKey idx)
      "rich_text_field" (fun b => dumpsRtf (markdown_to_rich_text_json b)))

/-- The FAQ block of the create branch. -/
def faqInputs (gid : String) (ids_map : IdsMap) (parsed : Parsed) : List CreateInput :=
  (List.range 3).filterMap (fun idx =>
    createPiece gid (ids_map (faqKey idx)) parsed.faq_answers[idx]? (faqKey idx)
      "rich_text_field" (fun a => dumpsRtf (markdown_to_rich_text_json a)))

/-- One numeric-detail creation (the four explicit `if` blocks). -/
def numInput (gid : String) (ids_map : IdsMap) (parsed : Parsed)
    (field : String) (isInt : Bool) (ty : String) : List CreateInput :=
  (createPiece gid (ids_map field) (normalize_numeric (dget parsed.details field) isInt)
    field ty id).toList

def escalaInputs (gid : String) (ids_map : IdsMap) (parsed : Parsed) : List CreateInput :=
  (createPiece gid (ids_map "escala") (escalaValue parsed) "escala"
    "single_line_text_field" id).toList

def titleInputs (gid : String) (ids_map : IdsMap) (parsed : Parsed) : List CreateInput :=
  (createPiece gid (ids_map "sec5_title") (titleValue parsed) "sec5_title"
    "single_line_text_field" id).toList

def bodyInputs (gid : String) (ids_map : IdsMap) (parsed : Parsed) : List CreateInput :=
  (createPiece gid (ids_map "sec5_body") (bodyValue parsed) "sec5_body"
    "rich_text_field" id).toList

/-- Embedding of `build_missing_metafields_inputs`. -/
def build_missing_metafields_inputs (product_gid : String) (ids_map : IdsMap)
    (parsed : Parsed) : List CreateInput :=
  vinetaInputs product_gid ids_map parsed ++ faqInputs product_gid ids_map parsed ++
    numInput product_gid ids_map parsed "ancho" false "number_decimal" ++
    numInput product_gid ids_map parsed "longitud" false "number_decimal" ++
    numInput product_gid ids_map parsed "alto" false "number_decimal" ++
    numInput product_gid ids_map parsed "piezas" true "number_integer" ++
    escalaInputs product_gid ids_map parsed ++
    titleInputs product_gid ids_map parsed ++
    bodyInputs product_gid ids_map parsed

/-! HTML content parser (`convert_analisis_copywriting_to_json.py`):
`strip_tags` and `parse_content`. -/

/-- One pass of `re.sub(r"<br\s*/?>", "\n", html, flags=IGNORECASE)`,
fuelled by the input length. -/
def brSubAux : Nat → List Char → List Char
  | 0, l => l
  | fuel + 1, l =>
    match l with
    | '<' :: b :: r :: rest =>
      if (b = 'b' || b = 'B') && (r = 'r' || r = 'R') then
        match rest.drop (rest.takeWhile isPyWs).length with
        | '/' :: '>' :: r2 => '\n' :: brSubAux fuel r2
        | '>' :: r2 => '\n' :: brSubAux fuel r2
        | _ => '<' :: brSubAux fuel (b :: r :: rest)
      else '<' :: brSubAux fuel (b :: r :: rest)
    | c :: rest => c :: brSubAux fuel rest
    | [] => []

/-- One pass of `re.sub(r"<[^>]+>", "", ...)`, fuelled. -/
def rmTagsAux : Nat → List Char → List Char
  | 0, l => l
  | fuel + 1, l =>
    match l with
    | '<' :: rest =>
      if (rest.takeWhile (fun c => c ≠ '>')).isEmpty then '<' :: rmTagsAux fuel rest
      else
        match rest.drop (rest.takeWhile (fun c => c ≠ '>')).length with
        | '>' :: r2 => rmTagsAux fuel r2
        | _ => '<' :: rmTagsAux fuel rest
    | c :: rest => c :: rmTagsAux fuel rest
    | [] => []

/-- Embedding of `strip_tags`. -/
def strip_tags (html : String) : String :=
  String.mk (rmTagsAux (html.data.length + 1)
    (brSubAux (html.data.length + 1) html.data))

/-- The sections the keyword switch can select. -/
inductive HSection where
  | none
  | vinetas
  | faq
  | detalles
  | video
deriving DecidableEq, Repr

/-- The accumulated output of `parse_content`. The Python `data` dict is
modelled with one field per key; the overflow list stored under the
`__otros__` key of each section dict gets its own field. -/
structure HData where
  vinetas : List String
  faq : List (Option String × String)
  detalles : List (String × String)
  detalles_otros : List String
  video_title : Option String
  video_body : Option String
  video_extra : List (String × String)
  video_otros : List String
deriving DecidableEq, Repr

/-- The keyword-driven section switch applied to a lowercased heading. -/
def hSwitch (low : List Char) : Option HSection :=
  if containsSub low (("viñetas").data) then some HSection.vinetas
  else if containsSub low (("faq").data) then some HSection.faq
  else if containsSub low (("detalles").data) then some HSection.detalles
  else if containsSub low (("video").data) then some HSection.video
  else none

/-- The FAQ item split `^(.+\?)\s*(.+)$`: the greedy group backtracks to
the rightmost question mark that still leaves a nonempty remainder. -/
def faqSplitAux : Nat → List Char → Option (List Char × List Char)
  | 0, _ => none
  | i + 1, item =>
    match item[i]? with
    | some '?' =>
      if i = 0 then none
      else
        match tailExtract (item.drop (i + 1)) with
        | some a => some (item.take (i + 1), a)
        | none => faqSplitAux i item
    | _ => faqSplitAux i item

def faqSplit (item : List Char) : Option (List Char × List Char) :=
  faqSplitAux item.length item

/-- The key-value item split `^([^:]+):\s*(.+)$`. -/
def kvSplit (item : List Char) : Option (List Char × List Char) :=
  if (item.takeWhile (fun c => c ≠ ':')).isEmpty then none
  else
    match item.drop (item.takeWhile (fun c => c ≠ ':')).length with
    | ':' :: r => (tailExtract r).map (fun v => (item.takeWhile (fun c => c ≠ ':'), v))
    | _ => none

/-- One line of the `parse_content` loop (lines arrive stripped and
nonempty). -/
def hStep (st : HSection × HData) (line : List Char) : HSection × HData :=
  match (if startsWith2 line (("### ").data) then hSwitch (lowerL line) else none) with
  | some s => (s, st.2)
  | none =>
    if startsWith2 line (("- ").data) then
      match st.1 with
      | HSection.vinetas =>
        (st.1, { st.2 with vinetas := st.2.vinetas ++ [String.mk (stripL (line.drop 2))] })
      | HSection.faq =>
        match faqSplit (stripL (line.drop 2)) with
        | some (q, a) =>
          (st.1, { st.2 with
            faq := st.2.faq ++ [(some (String.mk (stripL q)), String.mk (stripL a))] })
        | none =>
          (st.1, { st.2 with
            faq := st.2.faq ++ [(Option.none, String.mk (stripL (line.drop 2)))] })
      | HSection.detalles =>
        match kvSplit (stripL (line.drop 2)) with
        | some (k, v) =>
          (st.1, { st.2 with
            detalles := dput st.2.detalles (String.mk (stripL k)) (String.mk (stripL v)) })
        | none =>
          (st.1, { st.2 with
            detalles_otros := st.2.detalles_otros ++ [String.mk (stripL (line.drop 2))] })
      | HSection.video =>
        match kvSplit (stripL (line.drop 2)) with
        | some (k, v) =>
          if String.mk (lowerL (stripL k)) = "title" then
            (st.1, { st.2 with video_title := some (String.mk (stripL v)) })
          else if String.mk (lowerL (stripL k)) = "body" then
            (st.1, { st.2 with video_body := some (String.mk (stripL v)) })
          else
            (st.1, { st.2 with
              video_extra := dput st.2.video_extra
                (String.mk (lowerL (stripL k))) (String.mk (stripL v)) })
        | none =>
          (st.1, { st.2 with
            video_otros := st.2.video_otros ++ [String.mk (stripL (line.drop 2))] })
      | HSection.none => st
    else st

/-- Embedding of `parse_content` (tag stripping, then the line loop over
stripped nonempty lines). -/
def parse_content (content_html : String) : HData :=
  (((splitlinesL (strip_tags content_html).data).filterMap
      (fun l => if (stripL l).isEmpty then Option.none else some (stripL l))).foldl
    hStep (HSection.none, ⟨[], [], [], [], Option.none, Option.none, [], []⟩)).2

/-! The per-field value computation shared by the two planner branches,
used to state the omission invariant. -/

/-- The fixed schema keys, in the emission order of both branches. -/
def schemaKeys : List String :=
  ["vineta_1", "vineta_2", "vineta_3", "vineta_4", "vineta_5",
   "faq_2", "faq_3", "faq_4",
   "ancho", "longitud", "alto", "piezas", "escala", "sec5_title", "sec5_body"]

/-- The value the planner computes for one schema field (shared between
`generate_put_updates` and `build_missing_metafields_inputs`); `none`
means the field is absent or failed normalization and nothing is to be
emitted for it. -/
def plannedValue (parsed : Parsed) (k : String) : Option String :=
  if k = "vineta_1" then
    (parsed.bullets[0]?).map (fun b => dumpsRtf (markdown_to_rich_text_json b))
  else if k = "vineta_2" then
    (parsed.bullets[1]?).map (fun b => dumpsRtf (markdown_to_rich_text_json b))
  else if k = "vineta_3" then
    (parsed.bullets[2]?).map (fun b => dumpsRtf (markdown_to_rich_text_json b))
  else if k = "vineta_4" then
    (parsed.bullets[3]?).map (fun b => dumpsRtf (markdown_to_rich_text_json b))
  else if k = "vineta_5" then
    (parsed.bullets[4]?).map (fun b => dumpsRtf (markdown_to_rich_text_json b))
  else if k = "faq_2" then
    (parsed.faq_answers[0]?).map (fun a => dumpsRtf (markdown_to_rich_text_json a))
  else if k = "faq_3" then
    (parsed.faq_answers[1]?).map (fun a => dumpsRtf (markdown_to_rich_text_json a))
  else if k = "faq_4" then
    (parsed.faq_answers[2]?).map (fun a => dumpsRtf (markdown_to_rich_text_json a))
  else if k = "ancho" then normalize_numeric (dget parsed.details "ancho") false
  else if k = "longitud" then normalize_numeric (dget parsed.details "longitud") false
  else if k = "alto" then normalize_numeric (dget parsed.details "alto") false
  else if k = "piezas" then normalize_numeric (dget parsed.details "piezas") true
  else if k = "escala" then escalaValue parsed
  else if k = "sec5_title" then titleValue parsed
  else if k = "sec5_body" then bodyValue parsed
  else none

/-- The REST `value_type` label the update branch attaches to a field. -/
def updValueType (k : String) : String :=
  if k = "ancho" || k = "longitud" || k = "alto" then "string"
  else if k = "piezas" then "integer"
  else if k = "escala" || k = "sec5_title" then "string"
  else "json_string"

/-- The metafield `type` the create branch attaches to a field. -/
def createType (k : String) : String :=
  if k = "ancho" || k = "longitud" || k = "alto" then "number_decimal"
  else if k = "piezas" then "number_integer"
  else if k = "escala" || k = "sec5_title" then "single_line_text_field"
  else "rich_text_field"

/-- The update instruction key `k` contributes, if any. -/
def emitUpdate (ids_map : IdsMap) (parsed : Parsed) (k : String) : Option Update :=
  updPieceK (ids_map k) (plannedValue parsed k) (updValueType k)

/-- The creation input key `k` contributes, if any. -/
def emitCreate (gid : String) (ids_map : IdsMap) (parsed : Parsed) (k : String) :
    Option CreateInput :=
  createPiece gid (ids_map k) (plannedValue parsed k) k (createType k) id

theorem filterMap_cons_toList {α β : Type} (f : α → Option β) (a : α) (l : List α) :
    List.filterMap f (a :: l) = (f a).toList ++ List.filterMap f l := by
  cases h : f a <;> simp [List.filterMap_cons, h]

theorem updPiece_eq {α : Type} (X : Option α) (Y : Option Nat) (f : α → String) (t : String) :
    updPiece X Y f t = updPieceK Y (X.map f) t := by
  cases X <;> cases Y <;> rfl

theorem createPiece_dumps (gid : String) (Y : Option Nat) (X : Option String)
    (key ty : String) :
    createPiece gid Y X key ty (fun b => dumpsRtf (markdown_to_rich_text_json b)) =
      createPiece gid Y (X.map (fun b => dumpsRtf (markdown_to_rich_text_json b)))
        key ty id := by
  cases X <;> cases Y <;> rfl

/-- The update branch emits, in schema order, exactly the per-key
instructions described by `emitUpdate`. -/
theorem generate_put_updates_eq (m : IdsMap) (p : Parsed) :
    generate_put_updates m p = schemaKeys.filterMap (emitUpdate m p) := by
  unfold generate_put_updates vinetaUpdates faqUpdates numericUpdates escalaUpdates
    titleUpdates bodyUpdates schemaKeys
  rw [show List.range 5 = [0, 1, 2, 3, 4] by decide, show List.range 3 = [0, 1, 2] by decide]
  simp only [filterMap_cons_toList, List.filterMap_nil, List.append_nil, List.append_assoc]
  rw [updPiece_eq, updPiece_eq, updPiece_eq, updPiece_eq, updPiece_eq,
      updPiece_eq, updPiece_eq, updPiece_eq]
  rfl

/-- The create branch emits, in the same schema order, exactly the
per-key inputs described by `emitCreate`. -/
theorem build_missing_metafields_inputs_eq (gid : String) (m : IdsMap) (p : Parsed) :
    build_missing_metafields_inputs gid m p = schemaKeys.filterMap (emitCreate gid m p) := by
  unfold build_missing_metafields_inputs vinetaInputs faqInputs numInput escalaInputs
    titleInputs bodyInputs schemaKeys
  rw [show List.range 5 = [0, 1, 2, 3, 4] by decide, show List.range 3 = [0, 1, 2] by decide]
  simp only [filterMap_cons_toList, List.filterMap_nil, List.append_nil, List.append_assoc]
  simp only [createPiece_dumps]
  rfl

/-! Claim C1. -/

/-- C1: for every parsed content and identifier map, a schema field whose
computed value (`plannedValue`) is `none` — missing bullet or FAQ index,
numeric normalization returning `none`, an absence-phrase or empty scale
value, or a missing video title/body — contributes no instruction in
either branch, and a field with a non-`none` computed value contributes
exactly one instruction: in the update branch when its key is in the map,
in the create branch otherwise. The two branch outputs are exactly the
per-key emissions `emitUpdate`/`emitCreate` folded over the (duplicate
free) schema key list. -/
theorem C1_planner_omission_invariant (m : IdsMap) (gid : String) (parsed : Parsed) :
    generate_put_updates m parsed = schemaKeys.filterMap (emitUpdate m parsed)
    ∧ build_missing_metafields_inputs gid m parsed
        = schemaKeys.filterMap (emitCreate gid m parsed)
    ∧ schemaKeys.Nodup
    ∧ (∀ k, plannedValue parsed k = none →
        emitUpdate m parsed k = none ∧ emitCreate gid m parsed k = none)
    ∧ (∀ k v, plannedValue parsed k = some v → (m k).isSome →
        emitUpdate m parsed k ≠ none ∧ emitCreate gid m parsed k = none)
    ∧ (∀ k v, plannedValue parsed k = some v → m k = none →
        emitUpdate m parsed k = none ∧ emitCreate gid m parsed k ≠ none) := by
  refine ⟨generate_put_updates_eq m parsed,
    build_missing_metafields_inputs_eq gid m parsed, by decide, ?_, ?_, ?_⟩
  · intro k hk
    unfold emitUpdate emitCreate updPieceK createPiece
    rw [hk]
    cases m k <;> simp
  · intro k v hv hm
    cases hmk : m k with
    | none => rw [hmk] at hm; simp at hm
    | some i =>
      unfold emitUpdate emitCreate updPieceK createPiece
      rw [hv, hmk]
      simp
  · intro k v hv hm
    unfold emitUpdate emitCreate updPieceK createPiece
    rw [hv, hm]
    simp

/-- Concrete instantiation of the C1 invariant: a document carrying
width and pieces details, a map that only knows the width key. -/
def parsedC1W : Parsed :=
  parse_openai_markdown "### 3. Detalles\n- **Ancho:** 12 cm\n- **Piezas:** 150 pzas\n"

theorem C1_planner_omission_invariant_witness :
    generate_put_updates (mapOf [("ancho", 7)]) parsedC1W
        = schemaKeys.filterMap (emitUpdate (mapOf [("ancho", 7)]) parsedC1W)
    ∧ (emitUpdate (mapOf [("ancho", 7)]) parsedC1W "sec5_title" = none
        ∧ emitCreate "g" (mapOf [("ancho", 7)]) parsedC1W "sec5_title" = none)
    ∧ (emitUpdate (mapOf [("ancho", 7)]) parsedC1W "ancho" ≠ none
        ∧ emitCreate "g" (mapOf [("ancho", 7)]) parsedC1W "ancho" = none)
    ∧ (emitUpdate (mapOf [("ancho", 7)]) parsedC1W "piezas" = none
        ∧ emitCreate "g" (mapOf [("ancho", 7)]) parsedC1W "piezas" ≠ none) := by
  obtain ⟨h1, h2, h3, h4, h5, h6⟩ :=
    C1_planner_omission_invariant (mapOf [("ancho", 7)]) "g" parsedC1W
  exact ⟨h1, h4 "sec5_title" (by decide), h5 "ancho" "12" (by decide) (by decide),
    h6 "piezas" "150" (by decide) (by decide)⟩

/-! Claim C4. -/

theorem splitBoldAux_noTok :
    ∀ (fuel : Nat) (l acc : List Char), l.length ≤ fuel →
      hasBoldTok l = false → splitBoldAux fuel l acc = [acc.reverse ++ l] := by
  intro fuel
  induction fuel with
  | zero =>
    intro l acc hl h
    simp [splitBoldAux]
  | succ fuel ih =>
    intro l acc hl h
    match l with
    | [] => simp [splitBoldAux]
    | [c] => simp [splitBoldAux]
    | c1 :: c2 :: rest =>
      unfold hasBoldTok containsSub at h
      simp only [Bool.or_eq_false_iff] at h
      obtain ⟨h1, h2⟩ := h
      have h3 : (c1 = '*' && c2 = '*') = false := by
        simp [startsWith2] at h1
        simpa using h1
      rw [splitBoldAux]
      rw [if_neg (by simp [h3])]
      have h4 : hasBoldTok (c2 :: rest) = false := by
        unfold hasBoldTok
        exact h2
      rw [ih (c2 :: rest) (c1 :: acc) (by simp at hl ⊢; omega) h4]
      simp

theorem splitBold_noTok (l : List Char) (h : hasBoldTok l = false) :
    splitBold l = [l] := by
  unfold splitBold
  rw [splitBoldAux_noTok (l.length + 1) l [] (by omega) h]
  simp

/-- C4 (amended): on any input whose normalized line (carriage returns
removed, newlines turned to spaces, stripped) is nonempty and carries no
bold marker, the encoder yields one root, one paragraph, one span with
the bold flag unset; and the bold example splits exactly as claimed, the
flag toggling at each marker, empty segments dropped, interior spaces
kept. -/
theorem C4_rich_text_encoder :
    (∀ s : String, hasBoldTok (rtNormLine s) = false → rtNormLine s ≠ [] →
      markdown_to_rich_text_json s = ⟨[[⟨String.mk (rtNormLine s), false⟩]]⟩)
    ∧ markdown_to_rich_text_json "**a** b **c**"
        = ⟨[[⟨"a", true⟩, ⟨" b ", false⟩, ⟨"c", true⟩]]⟩ := by
  constructor
  · intro s h1 h2
    unfold markdown_to_rich_text_json
    rw [splitBold_noTok (rtNormLine s) h1]
    match h3 : rtNormLine s with
    | [] => exact absurd h3 h2
    | c :: cs => rfl
  · decide

theorem C4_rich_text_encoder_witness :
    hasBoldTok (rtNormLine "hola mundo") = false
    ∧ rtNormLine "hola mundo" ≠ []
    ∧ markdown_to_rich_text_json "hola mundo"
        = ⟨[[⟨String.mk (rtNormLine "hola mundo"), false⟩]]⟩ :=
  ⟨by decide, by decide,
    C4_rich_text_encoder.1 "hola mundo" (by decide) (by decide)⟩

/-- C4 counterexample: the empty input contains no bold marker, yet the
encoder produces a paragraph with zero spans, not a single span — the
claim fails without a nonemptiness proviso. -/
theorem C4_counterexample :
    markdown_to_rich_text_json "" = ⟨[[]]⟩
    ∧ hasBoldTok (rtNormLine "") = false
    ∧ ¬ (∃ sp : TextSpan, markdown_to_rich_text_json "" = ⟨[[sp]]⟩) := by
  refine ⟨by decide, by decide, ?_⟩
  rintro ⟨sp, h⟩
  have h0 : markdown_to_rich_text_json "" = ⟨[[]]⟩ := by decide
  rw [h0] at h
  have h1 : ([] : List TextSpan) = [sp] := by
    injection h with h2
    injection h2 with h3 h4
  simp at h1

/-! Claim C5. -/

/-- C5: `normalize_numeric` maps a `None` input, a blank input, an
absence-phrase input and an input with no numeric token to `None`;
otherwise it returns the first signed numeric token with the comma
separator normalized to a dot, truncating to an integer string in
integer mode — witnessed on the claim's three examples and a comma
input. -/
theorem C5_normalize_numeric :
    (∀ i, normalize_numeric none i = none)
    ∧ (∀ s i, pyStripS s = "" → normalize_numeric (some s) i = none)
    ∧ (∀ s i, ABSENCE_PHRASES.contains (pyLowerS (pyStripS s)) = true →
        normalize_numeric (some s) i = none)
    ∧ (∀ s i, searchNum (pyLowerS (pyStripS s)).data = none →
        normalize_numeric (some s) i = none)
    ∧ normalize_numeric (some "No disponible") false = none
    ∧ normalize_numeric (some "12.5 cm") false = some "12.5"
    ∧ normalize_numeric (some "8 piezas") true = some "8"
    ∧ normalize_numeric (some "12,5") false = some "12.5"
    ∧ normalize_numeric (some "lote de -7,25 mm") false = some "-7.25" := by
  refine ⟨fun i => rfl, ?_, ?_, ?_, by decide, by decide, by decide, by decide, by decide⟩
  · intro s i h
    simp only [normalize_numeric]
    rw [h]
    rfl
  · intro s i h
    simp only [normalize_numeric]
    rw [h]
    simp
  · intro s i h
    simp only [normalize_numeric]
    split
    · rfl
    · rw [h]

theorem C5_normalize_numeric_witness :
    normalize_numeric (some "   ") true = none
    ∧ normalize_numeric (some " Sin dato ") false = none
    ∧ normalize_numeric (some "ningún número") true = none := by
  refine ⟨?_, ?_, ?_⟩
  · exact C5_normalize_numeric.2.1 "   " true (by decide)
  · exact C5_normalize_numeric.2.2.1 " Sin dato " false (by decide)
  · exact C5_normalize_numeric.2.2.2.1 "ningún número" true (by decide)

/-! Claim C2. -/

/-- C2: section-2 FAQ extraction. The body splits at the block separator
(a newline, a dash-bullet, whitespace, then an opening bold run), the
preamble is dropped, every surviving answer comes from the ordered
strategy cascade (bold-close before a newline; bold-close before a
colon/dash; bold-close before spaces; whole block), answers are
whitespace-collapsed, trimmed and kept only when nonempty; on the
claim's section-2 body the single answer is the text with the question
discarded. Strategy (a) wins even when (b) would match earlier in the
block. -/
theorem C2_faq_answer_extraction :
    faqAnswersOfBody ("\n- **¿Qué incluye?**\nTodo el set.").data = ["Todo el set."]
    ∧ (parse_openai_markdown "### 2. FAQ\n- **¿Qué incluye?**\nTodo el set.").faq_answers
        = ["Todo el set."]
    ∧ answerOfBlock ("¿Qué incluye?**\nTodo el set.").data = ("Todo el set.").data
    ∧ answerOfBlock ("Q**: Respuesta B").data = ("Respuesta B").data
    ∧ answerOfBlock ("Q**   Respuesta C").data = ("Respuesta C").data
    ∧ answerOfBlock ("Sin separador alguno").data = ("Sin separador alguno").data
    ∧ answerOfBlock ("Q**: x**\ny").data = ("y").data
    ∧ (∀ body, faqAnswersOfBody body
        = ((splitFaqBlocks body).drop 1).filterMap (fun blk =>
            if (stripL (collapseWs (answerOfBlock blk))).isEmpty then none
            else some (String.mk (stripL (collapseWs (answerOfBlock blk))))))
    ∧ (∀ body a, a ∈ faqAnswersOfBody body → a ≠ "") := by
  refine ⟨by decide, by decide, by decide, by decide, by decide, by decide, by decide,
    fun body => rfl, ?_⟩
  intro body a ha
  unfold faqAnswersOfBody at ha
  rw [List.mem_filterMap] at ha
  obtain ⟨blk, hblk, hsome⟩ := ha
  split at hsome
  · simp at hsome
  · rename_i hne
    injection hsome with ha2
    intro hcontra
    rw [hcontra] at ha2
    have h3 : stripL (collapseWs (answerOfBlock blk)) = [] := by
      have h4 : String.mk (stripL (collapseWs (answerOfBlock blk))) = String.mk [] := by
        rw [ha2]
      injection h4
    rw [h3] at hne
    simp at hne

theorem C2_faq_answer_extraction_witness :
    ("x" : String) ≠ "" :=
  C2_faq_answer_extraction.2.2.2.2.2.2.2.2
    ("\n- **P**\nx").data "x" (by decide)

/-! Claim C8. -/

/-- C8: the parser and the normalizer are total functions of this
development (they terminate on every input by construction), and they
degrade rather than fail: an input in which the heading pattern never
matches parses to empty bullets, empty FAQ answers, empty details and
absent video title/body, and a value without a numeric token normalizes
to `none`. -/
theorem C8_parser_totality :
    (∀ content : String, findHeadings content.data = [] →
      parse_openai_markdown content = ⟨[], [], [], none, none⟩)
    ∧ (∀ v i, searchNum (pyLowerS (pyStripS v)).data = none →
        normalize_numeric (some v) i = none) := by
  constructor
  · intro content h
    unfold parse_openai_markdown sectionsOf
    rw [h]
    rfl
  · intro v i h
    simp only [normalize_numeric]
    split
    · rfl
    · rw [h]

theorem C8_parser_totality_witness :
    parse_openai_markdown "texto sin ningún encabezado\n- ni bullets contados\n"
        = ⟨[], [], [], none, none⟩
    ∧ normalize_numeric (some "sin cifras") true = none :=
  ⟨C8_parser_totality.1 "texto sin ningún encabezado\n- ni bullets contados\n" (by decide),
    C8_parser_totality.2 "sin cifras" true (by decide)⟩

/-! Claim C6. -/

/-- The claim's details document: exactly the width and pieces lines. -/
def docC6 : String :=
  "### 3. Detalles Técnicos\n- **Ancho:** 12 cm\n- **Piezas:** 150 pzas\n"

theorem updPieceK_valNone (Y : Option Nat) (t : String) : updPieceK Y none t = none := by
  cases Y <;> rfl

/-- C6 (amended): on the claim's details document and any identifier map
knowing the width and pieces keys, the update branch emits exactly two
instructions — width with value "12" and pieces with value "150" — but
the REST update branch labels the width value with the plain string
value type (`"string"`), not a decimal value type; pieces carries
`"integer"` as claimed. -/
theorem C6_end_to_end_scenario (m : IdsMap) (iw ip : Nat)
    (hw : m "ancho" = some iw) (hp : m "piezas" = some ip) :
    generate_put_updates m (parse_openai_markdown docC6)
      = [⟨iw, "12", "string"⟩, ⟨ip, "150", "integer"⟩] := by
  rw [generate_put_updates_eq]
  unfold schemaKeys
  simp only [filterMap_cons_toList, List.filterMap_nil, List.append_nil]
  have en0 : emitUpdate m (parse_openai_markdown docC6) "vineta_1" = none := by
    unfold emitUpdate
    rw [show plannedValue (parse_openai_markdown docC6) "vineta_1" = none from by decide]
    exact updPieceK_valNone _ _
  have en1 : emitUpdate m (parse_openai_markdown docC6) "vineta_2" = none := by
    unfold emitUpdate
    rw [show plannedValue (parse_openai_markdown docC6) "vineta_2" = none from by decide]
    exact updPieceK_valNone _ _
  have en2 : emitUpdate m (parse_openai_markdown docC6) "vineta_3" = none := by
    unfold emitUpdate
    rw [show plannedValue (parse_openai_markdown docC6) "vineta_3" = none from by decide]
    exact updPieceK_valNone _ _
  have en3 : emitUpdate m (parse_openai_markdown docC6) "vineta_4" = none := by
    unfold emitUpdate
    rw [show plannedValue (parse_openai_markdown docC6) "vineta_4" = none from by decide]
    exact updPieceK_valNone _ _
  have en4 : emitUpdate m (parse_openai_markdown docC6) "vineta_5" = none := by
    unfold emitUpdate
    rw [show plannedValue (parse_openai_markdown docC6) "vineta_5" = none from by decide]
    exact updPieceK_valNone _ _
  have en5 : emitUpdate m (parse_openai_markdown docC6) "faq_2" = none := by
    unfold emitUpdate
    rw [show plannedValue (parse_openai_markdown docC6) "faq_2" = none from by decide]
    exact updPieceK_valNone _ _
  have en6 : emitUpdate m (parse_openai_markdown docC6) "faq_3" = none := by
    unfold emitUpdate
    rw [show plannedValue (parse_openai_markdown docC6) "faq_3" = none from by decide]
    exact updPieceK_valNone _ _
  have en7 : emitUpdate m (parse_openai_markdown docC6) "faq_4" = none := by
    unfold emitUpdate
    rw [show plannedValue (parse_openai_markdown docC6) "faq_4" = none from by decide]
    exact updPieceK_valNone _ _
  have en8 : emitUpdate m (parse_openai_markdown docC6) "longitud" = none := by
    unfold emitUpdate
    rw [show plannedValue (parse_openai_markdown docC6) "longitud" = none from by decide]
    exact updPieceK_valNone _ _
  have en9 : emitUpdate m (parse_openai_markdown docC6) "alto" = none := by
    unfold emitUpdate
    rw [show plannedValue (parse_openai_markdown docC6) "alto" = none from by decide]
    exact updPieceK_valNone _ _
  have en10 : emitUpdate m (parse_openai_markdown docC6) "escala" = none := by
    unfold emitUpdate
    rw [show plannedValue (parse_openai_markdown docC6) "escala" = none from by decide]
    exact updPieceK_valNone _ _
  have en11 : emitUpdate m (parse_openai_markdown docC6) "sec5_title" = none := by
    unfold emitUpdate
    rw [show plannedValue (parse_openai_markdown docC6) "sec5_title" = none from by decide]
    exact updPieceK_valNone _ _
  have en12 : emitUpdate m (parse_openai_markdown docC6) "sec5_body" = none := by
    unfold emitUpdate
    rw [show plannedValue (parse_openai_markdown docC6) "sec5_body" = none from by decide]
    exact updPieceK_valNone _ _
  have ea : emitUpdate m (parse_openai_markdown docC6) "ancho"
      = some ⟨iw, "12", "string"⟩ := by
    unfold emitUpdate
    rw [hw, show plannedValue (parse_openai_markdown docC6) "ancho" = some "12" from by decide]
    rfl
  have ep : emitUpdate m (parse_openai_markdown docC6) "piezas"
      = some ⟨ip, "150", "integer"⟩ := by
    unfold emitUpdate
    rw [hp, show plannedValue (parse_openai_markdown docC6) "piezas" = some "150" from by decide]
    rfl
  rw [en0, en1, en2, en3, en4, en5, en6, en7, en8, en9, en10, en11, en12, ea, ep]
  rfl

theorem C6_end_to_end_scenario_witness :
    generate_put_updates (mapOf [("ancho", 101), ("piezas", 202)])
        (parse_openai_markdown docC6)
      = [⟨101, "12", "string"⟩, ⟨202, "150", "integer"⟩] :=
  C6_end_to_end_scenario (mapOf [("ancho", 101), ("piezas", 202)]) 101 202
    (by decide) (by decide)

/-- C6 counterexample: with width and pieces in the map, the two emitted
update instructions carry the value types "string" and "integer"; no
instruction carries a decimal value type, contradicting the claimed
`valueType: decimal` for the width instruction. -/
theorem C6_counterexample :
    generate_put_updates (mapOf [("ancho", 101), ("piezas", 202)])
        (parse_openai_markdown docC6)
      = [⟨101, "12", "string"⟩, ⟨202, "150", "integer"⟩]
    ∧ (generate_put_updates (mapOf [("ancho", 101), ("piezas", 202)])
        (parse_openai_markdown docC6)).all
          (fun u => !(u.value_type = "decimal")) = true := by
  constructor
  · decide
  · decide

/-! Claims C7 and C10. -/

theorem bullet_not_heading (line : List Char)
    (hb : startsWith2 line (("- ").data) = true) :
    startsWith2 line (("### ").data) = false := by
  cases line with
  | nil => simp [startsWith2] at hb
  | cons c rest =>
    simp [startsWith2] at hb
    obtain ⟨hc, _⟩ := hb
    subst hc
    rfl

theorem heading_not_bullet (line : List Char)
    (hh : startsWith2 line (("### ").data) = true) :
    startsWith2 line (("- ").data) = false := by
  cases line with
  | nil => simp [startsWith2] at hh
  | cons c rest =>
    simp [startsWith2] at hh
    obtain ⟨hc, _⟩ := hh
    subst hc
    rfl

/-- C7: in the HTML parser's FAQ section a bulleted line splitting as
"text ending in a question mark, then remaining text" is kept as a
question/answer pair with both parts retained; a bulleted line with no
such split becomes an answer with a null question; the claim's line
produces the pair with the question kept (unlike the Markdown parser). -/
theorem C7_html_faq_extraction :
    (parse_content "### FAQ\n- ¿Qué incluye? Todo el set.").faq
        = [(some "¿Qué incluye?", "Todo el set.")]
    ∧ faqSplit ("¿Qué incluye? Todo el set.").data
        = some (("¿Qué incluye?").data, ("Todo el set.").data)
    ∧ (∀ d line q a, startsWith2 line (("- ").data) = true →
        faqSplit (stripL (line.drop 2)) = some (q, a) →
        hStep (HSection.faq, d) line
          = (HSection.faq,
             { d with faq := d.faq ++ [(some (String.mk (stripL q)), String.mk (stripL a))] }))
    ∧ (∀ d line, startsWith2 line (("- ").data) = true →
        faqSplit (stripL (line.drop 2)) = none →
        hStep (HSection.faq, d) line
          = (HSection.faq,
             { d with faq := d.faq ++ [(Option.none, String.mk (stripL (line.drop 2)))] })) := by
  refine ⟨by decide, by decide, ?_, ?_⟩
  · intro d line q a hb hs
    unfold hStep
    rw [bullet_not_heading line hb]
    rw [hs, hb]
    rfl
  · intro d line hb hs
    unfold hStep
    rw [bullet_not_heading line hb]
    rw [hs, hb]
    rfl

theorem C7_html_faq_extraction_witness :
    hStep (HSection.faq, ⟨[], [], [], [], Option.none, Option.none, [], []⟩)
        ("- ¿Qué incluye? Todo el set.").data
      = (HSection.faq,
         ⟨[], [(some "¿Qué incluye?", "Todo el set.")], [], [], Option.none, Option.none, [], []⟩) := by
  have h := C7_html_faq_extraction.2.2.1
    (⟨[], [], [], [], Option.none, Option.none, [], []⟩ : HData)
    (("- ¿Qué incluye? Todo el set.").data)
    (("¿Qué incluye?").data) (("Todo el set.").data) (by decide) (by decide)
  rw [h]
  rfl

/-- C10: HTML section switching is by keyword, not by heading number — a
heading line switches to the section whose keyword its lowercased text
contains, a heading with no keyword leaves the section unchanged, and a
bulleted line seen before any recognized heading is dropped. -/
theorem C10_html_section_switching :
    (∀ sec d line, startsWith2 line (("### ").data) = true →
        hSwitch (lowerL line) = none → hStep (sec, d) line = (sec, d))
    ∧ (∀ sec d line s, startsWith2 line (("### ").data) = true →
        hSwitch (lowerL line) = some s → hStep (sec, d) line = (s, d))
    ∧ (∀ low, containsSub low (("viñetas").data) = true →
        hSwitch low = some HSection.vinetas)
    ∧ (∀ d line, startsWith2 line (("- ").data) = true →
        hStep (HSection.none, d) line = (HSection.none, d))
    ∧ parse_content "### 1. Viñetas\n- a\n### Sin palabra clave\n- b"
        = ⟨["a", "b"], [], [], [], Option.none, Option.none, [], []⟩
    ∧ parse_content "- temprano\n### 2. FAQ\n- ¿X? y"
        = ⟨[], [(some "¿X?", "y")], [], [], Option.none, Option.none, [], []⟩ := by
  refine ⟨?_, ?_, ?_, ?_, by decide, by decide⟩
  · intro sec d line hh hsw
    unfold hStep
    rw [hh, heading_not_bullet line hh]
    simp only [if_true]
    rw [hsw]
    rfl
  · intro sec d line s hh hsw
    unfold hStep
    rw [hh]
    simp only [if_true]
    rw [hsw]
  · intro low hkw
    unfold hSwitch
    rw [hkw]
    rfl
  · intro d line hb
    unfold hStep
    rw [bullet_not_heading line hb, hb]
    rfl

theorem C10_html_section_switching_witness :
    hStep (HSection.detalles, ⟨["v"], [], [], [], Option.none, Option.none, [], []⟩)
        ("### Encabezado sin clave").data
      = (HSection.detalles, ⟨["v"], [], [], [], Option.none, Option.none, [], []⟩)
    ∧ hStep (HSection.none, ⟨[], [], [], [], Option.none, Option.none, [], []⟩)
        ("- perdido").data
      = (HSection.none, ⟨[], [], [], [], Option.none, Option.none, [], []⟩)
    ∧ hSwitch (lowerL ("### 9. viñetas extra").data) = some HSection.vinetas := by
  refine ⟨?_, ?_, ?_⟩
  · exact C10_html_section_switching.1 HSection.detalles
      (⟨["v"], [], [], [], Option.none, Option.none, [], []⟩ : HData)
      (("### Encabezado sin clave").data) (by decide) (by decide)
  · exact C10_html_section_switching.2.2.2.1
      (⟨[], [], [], [], Option.none, Option.none, [], []⟩ : HData)
      (("- perdido").data) (by decide)
  · exact C10_html_section_switching.2.2.1 (lowerL ("### 9. viñetas extra").data) (by decide)

/-! Claim C3. -/

theorem bullet_not_hashes (s : List Char)
    (hb : startsWith2 s (("- ").data) = true) :
    startsWith2 s (("###").data) = false := by
  cases s with
  | nil => simp [startsWith2] at hb
  | cons c rest =>
    simp [startsWith2] at hb
    obtain ⟨hc, _⟩ := hb
    subst hc
    rfl

theorem bullet_not_bodyMarker (s : List Char)
    (hb : startsWith2 s (("- ").data) = true) :
    bodyMarkerAt s = false := by
  cases s with
  | nil => simp [startsWith2] at hb
  | cons c rest =>
    simp [startsWith2] at hb
    obtain ⟨hc, _⟩ := hb
    subst hc
    rfl

/-- C3 (amended): the section-4 line scan. Heading lines are skipped. A
bulleted line containing a bold Title opener is handled only by the
title rule: the colon-inside layout is tried first, then the
colon-outside layout, the match's remainder becomes the title and the
first-bullet flag is set; if neither layout matches, the line is dropped
(not appended to the body). Otherwise a bulleted line that is entirely
one bold run becomes the title when no title was captured yet and the
text carries no reserved word, and is dropped when the reserved-word
guard fires. Remaining bulleted lines (bullet layers stripped) and
nonempty non-bulleted lines are appended to the body unless the
defensive Title/Video/Body filters reject them; the final body is the
accumulated lines joined with newlines, or absent when none were kept —
as on the claim's concrete section. -/
theorem C3_video_section_scan :
    (∀ st line, startsWith2 (stripL line) (("###").data) = true → videoStep st line = st)
    ∧ (∀ st line r, startsWith2 (stripL line) (("- ").data) = true →
        gateTitle (stripL line) = true →
        scanFor matchTitle1At (stripL line) = some r →
        videoStep st line = { st with title := some (stripL r), flag := true })
    ∧ (∀ st line r, startsWith2 (stripL line) (("- ").data) = true →
        gateTitle (stripL line) = true →
        scanFor matchTitle1At (stripL line) = none →
        scanFor matchTitle2At (stripL line) = some r →
        videoStep st line = { st with title := some (stripL r), flag := true })
    ∧ (∀ st line, startsWith2 (stripL line) (("- ").data) = true →
        gateTitle (stripL line) = true →
        scanFor matchTitle1At (stripL line) = none →
        scanFor matchTitle2At (stripL line) = none →
        videoStep st line = st)
    ∧ (∀ st line g, startsWith2 (stripL line) (("- ").data) = true →
        gateTitle (stripL line) = false →
        boldOnlyMatch (stripL line) = some g → st.flag = false →
        reservedWord (stripL g) = false →
        videoStep st line = { st with title := some (stripL g), flag := true })
    ∧ (∀ st line g, startsWith2 (stripL line) (("- ").data) = true →
        gateTitle (stripL line) = false →
        boldOnlyMatch (stripL line) = some g → st.flag = false →
        reservedWord (stripL g) = true →
        videoStep st line = st)
    ∧ (∀ st line, startsWith2 (stripL line) (("- ").data) = true →
        gateTitle (stripL line) = false →
        boldOnlyMatch (stripL line) = none →
        videoStep st line
          = vBodyAppend st (stripDashes ((stripL line).length + 1) (stripL line)))
    ∧ (∀ st line g, startsWith2 (stripL line) (("- ").data) = true →
        gateTitle (stripL line) = false →
        boldOnlyMatch (stripL line) = some g → st.flag = true →
        videoStep st line
          = vBodyAppend st (stripDashes ((stripL line).length + 1) (stripL line)))
    ∧ (∀ st line, startsWith2 (stripL line) (("###").data) = false →
        startsWith2 (stripL line) (("- ").data) = false →
        stripL line ≠ [] → videoStep st line = vBodyAppend st (stripL line))
    ∧ (∀ st c, c ≠ [] → (filterTitle c || filterVideo c || bodyMarkerAt c) = false →
        vBodyAppend st c = { st with body := st.body ++ [c] })
    ∧ (∀ st c, (filterTitle c || filterVideo c || bodyMarkerAt c) = true →
        vBodyAppend st c = st)
    ∧ (parse_openai_markdown "### 4. Video\n- **Mi Gran Título**\n- Primera línea del cuerpo.\n").video_title
        = some "Mi Gran Título"
    ∧ (parse_openai_markdown "### 4. Video\n- **Mi Gran Título**\n- Primera línea del cuerpo.\n").video_body
        = some "Primera línea del cuerpo." := by
  refine ⟨?_, ?_, ?_, ?_, ?_, ?_, ?_, ?_, ?_, ?_, ?_, by decide, by decide⟩
  · intro st line hh
    unfold videoStep
    rw [hh]
    rfl
  · intro st line r hb hg h1
    unfold videoStep
    rw [bullet_not_hashes _ hb, hb, hg, h1]
    rfl
  · intro st line r hb hg h1 h2
    unfold videoStep
    rw [bullet_not_hashes _ hb, hb, hg, h1, h2]
    rfl
  · intro st line hb hg h1 h2
    unfold videoStep
    rw [bullet_not_hashes _ hb, hb, hg, h1, h2]
    rfl
  · intro st line g hb hg hbo hf hres
    unfold videoStep
    rw [bullet_not_hashes _ hb, hb, hg, hbo, hf]
    simp [hres]
  · intro st line g hb hg hbo hf hres
    unfold videoStep
    rw [bullet_not_hashes _ hb, hb, hg, hbo, hf]
    simp [hres]
  · intro st line hb hg hbo
    unfold videoStep
    rw [bullet_not_hashes _ hb, hb, hg, hbo, bullet_not_bodyMarker _ hb]
    rfl
  · intro st line g hb hg hbo hf
    unfold videoStep
    rw [bullet_not_hashes _ hb, hb, hg, hbo, hf, bullet_not_bodyMarker _ hb]
    rfl
  · intro st line hh hb hne
    unfold videoStep
    rw [hh, hb]
    cases hsl : stripL line with
    | nil => exact absurd hsl hne
    | cons c cs => rfl
  · intro st c hne hf
    unfold vBodyAppend
    rw [hf]
    cases hc : c with
    | nil => exact absurd hc hne
    | cons x xs => rfl
  · intro st c hf
    unfold vBodyAppend
    rw [hf]
    cases c <;> rfl

theorem C3_video_section_scan_witness :
    videoStep ⟨Option.none, false, []⟩ ("- **Title:** Mi video").data
      = ⟨some (("Mi video").data), true, []⟩
    ∧ videoStep ⟨Option.none, false, []⟩ ("- **Puro Bold**").data
      = ⟨some (("Puro Bold").data), true, []⟩
    ∧ videoStep ⟨Option.none, true, []⟩ ("- línea de cuerpo").data
      = ⟨Option.none, true, [("línea de cuerpo").data]⟩ := by
  obtain ⟨h1, h2, h3, h4, h5, h6, h7, h8, h9, h10, h11, h12, h13⟩ := C3_video_section_scan
  refine ⟨?_, ?_, ?_⟩
  · rw [h2 ⟨Option.none, false, []⟩ (("- **Title:** Mi video").data)
      (("Mi video").data) (by decide) (by decide) (by decide)]
    rfl
  · rw [h5 ⟨Option.none, false, []⟩ (("- **Puro Bold**").data)
      (("Puro Bold").data) (by decide) (by decide) (by decide) (by decide) (by decide)]
    rfl
  · rw [h7 ⟨Option.none, true, []⟩ (("- línea de cuerpo").data) (by decide) (by decide)
      (by decide)]
    rfl

/-- C3 counterexample: the bulleted line "- x **Titlex" matches neither
title layout, is not a bold-only bullet, is no Body marker, and its
stripped content passes every defensive filter, so under the claim it
would be appended to the body; the scan drops it (the gating search for
a bold Title opener short-circuits the whole line) and the parsed video
body is absent. -/
theorem C3_counterexample :
    startsWith2 (stripL ("- x **Titlex").data) (("- ").data) = true
    ∧ scanFor matchTitle1At (stripL ("- x **Titlex").data) = none
    ∧ scanFor matchTitle2At (stripL ("- x **Titlex").data) = none
    ∧ boldOnlyMatch (stripL ("- x **Titlex").data) = none
    ∧ stripDashes ((stripL ("- x **Titlex").data).length + 1) (stripL ("- x **Titlex").data)
        = ("x **Titlex").data
    ∧ (filterTitle ("x **Titlex").data || filterVideo ("x **Titlex").data
        || bodyMarkerAt ("x **Titlex").data) = false
    ∧ (parse_openai_markdown "### 4. Video\n- x **Titlex\n").video_body = none
    ∧ ¬ ((parse_openai_markdown "### 4. Video\n- x **Titlex\n").video_body
        = some "x **Titlex") := by
  refine ⟨by decide, by decide, by decide, by decide, by decide, by decide, by decide, ?_⟩
  intro h
  rw [show (parse_openai_markdown "### 4. Video\n- x **Titlex\n").video_body = none
    from by decide] at h
  simp at h

/-! Claim C9. -/

theorem suffix_drop_eq {r l : List Char} (h : r <:+ l) :
    l.drop (l.length - r.length) = r := by
  obtain ⟨t, ht⟩ := h
  subst ht
  have h1 : (t ++ r).length - r.length = t.length := by
    simp [List.length_append]
  rw [h1, List.drop_left]

theorem findHeadingsAux_succ (fuel : Nat) (rem : List Char) (pos : Nat) (b : Bool) :
    findHeadingsAux (fuel + 1) rem pos b
      = match (if b then matchHeadingAt rem else none) with
        | some (ds, rest) =>
          (pos, ds) :: findHeadingsAux fuel rest (pos + (rem.length - rest.length)) true
        | none =>
          match rem with
          | [] => []
          | c :: r => findHeadingsAux fuel r (pos + 1) (decide (c = '\n')) := rfl

theorem findHeadingsAux_spec (cs : List Char) :
    ∀ fuel rem pos b, rem = cs.drop pos →
      (∀ pd ∈ findHeadingsAux fuel rem pos b,
          pos ≤ pd.1 ∧ pd.1 + 3 ≤ cs.length
          ∧ ∃ r, matchHeadingAt (cs.drop pd.1) = some (pd.2, r))
      ∧ List.Chain' (fun a b : Nat × List Char => a.1 + 3 ≤ b.1)
          (findHeadingsAux fuel rem pos b) := by
  intro fuel
  induction fuel with
  | zero =>
    intro rem pos b hrem
    constructor
    · intro pd h
      simp [findHeadingsAux] at h
    · simp [findHeadingsAux]
  | succ fuel ih =>
    intro rem pos b hrem
    rw [findHeadingsAux_succ]
    cases hm : (if b then matchHeadingAt rem else none) with
    | some pr =>
      obtain ⟨ds, rest⟩ := pr
      have hmm : matchHeadingAt rem = some (ds, rest) := by
        cases b with
        | false => simp at hm
        | true => simpa using hm
      obtain ⟨rest0, hshape, hsuf⟩ := matchHeadingAt_shape rem ds rest hmm
      have hlen : rest.length + 3 ≤ rem.length := matchHeadingAt_length rem ds rest hmm
      have hsufrem : rest <:+ rem := by
        rw [hshape]
        exact hsuf.trans ((List.suffix_cons '#' rest0).trans
          ((List.suffix_cons '#' ('#' :: rest0)).trans
            (List.suffix_cons '#' ('#' :: '#' :: rest0))))
      have hnext : rest = cs.drop (pos + (rem.length - rest.length)) := by
        rw [← List.drop_drop, ← hrem, suffix_drop_eq hsufrem]
      have hremlen : rem.length = cs.length - pos := by
        rw [hrem, List.length_drop]
      have hbound : pos + 3 ≤ cs.length := by omega
      obtain ⟨ihmem, ihchain⟩ :=
        ih rest (pos + (rem.length - rest.length)) true hnext
      constructor
      · intro pd hpd
        rcases List.mem_cons.mp hpd with heq | htail
        · subst heq
          refine ⟨Nat.le_refl pos, hbound, rest, ?_⟩
          rw [← hrem]
          exact hmm
        · obtain ⟨h1, h2, h3⟩ := ihmem pd htail
          exact ⟨by omega, h2, h3⟩
      · refine List.chain'_cons'.mpr ⟨?_, ihchain⟩
        intro b2 hb2
        obtain ⟨h1, _, _⟩ := ihmem b2 (List.mem_of_mem_head? hb2)
        simp only []
        omega
    | none =>
      cases rem with
      | nil =>
        constructor
        · intro pd h
          simp at h
        · exact List.chain'_nil
      | cons c r =>
        have hr : r = cs.drop (pos + 1) := by
          rw [← List.drop_drop, ← hrem]
          rfl
        obtain ⟨ihm, ihc⟩ := ih r (pos + 1) (decide (c = '\n')) hr
        refine ⟨?_, ihc⟩
        intro pd hpd
        obtain ⟨h1, h2, h3⟩ := ihm pd hpd
        exact ⟨by omega, h2, h3⟩

theorem buildSecs_mem_shape (cs : List Char) :
    ∀ hs, List.Chain' (fun a b : Nat × List Char => a.1 + 3 ≤ b.1) hs →
      (∀ pd ∈ hs, pd.1 + 3 ≤ cs.length
          ∧ ∃ r, matchHeadingAt (cs.drop pd.1) = some (pd.2, r)) →
      ∀ sb ∈ buildSecs cs hs, ∃ t, sb.2 = '#' :: '#' :: '#' :: t := by
  intro hs
  induction hs with
  | nil =>
    intro _ _ sb h
    simp [buildSecs] at h
  | cons pd rest ih =>
    obtain ⟨p, ds⟩ := pd
    intro hchain hmem sb hsb
    have hhead := hmem (p, ds) (List.mem_cons_self _ _)
    obtain ⟨hbound, r, hma⟩ := hhead
    obtain ⟨rest0, hshape, _⟩ := matchHeadingAt_shape (cs.drop p) ds r hma
    cases rest with
    | nil =>
      simp only [buildSecs, List.mem_singleton] at hsb
      subst hsb
      have h3 : ∃ n, cs.length - p = n + 3 := ⟨cs.length - p - 3, by omega⟩
      obtain ⟨n, hn⟩ := h3
      refine ⟨rest0.take n, ?_⟩
      simp only [hn, hshape, List.take_succ_cons]
    | cons qd rest' =>
      rcases List.mem_cons.mp hsb with heq | htail
      · subst heq
        have hpq : p + 3 ≤ qd.1 := (List.chain'_cons.mp hchain).1
        have h3 : ∃ n, qd.1 - p = n + 3 := ⟨qd.1 - p - 3, by omega⟩
        obtain ⟨n, hn⟩ := h3
        refine ⟨rest0.take n, ?_⟩
        simp only [hn, hshape, List.take_succ_cons]
      · exact ih (List.Chain'.tail hchain)
          (fun pd h => hmem pd (List.mem_cons_of_mem _ h)) sb htail

theorem buildSecs_join (cs : List Char) :
    ∀ rest p ds, List.Chain' (fun a b : Nat × List Char => a.1 ≤ b.1) ((p, ds) :: rest) →
      (∀ pd ∈ (p, ds) :: rest, pd.1 ≤ cs.length) →
      joinBodies (buildSecs cs ((p, ds) :: rest)) = cs.drop p := by
  intro rest
  induction rest with
  | nil =>
    intro p ds _ hmem
    have hp : p ≤ cs.length := hmem (p, ds) (List.mem_cons_self _ _)
    show (cs.drop p).take (cs.length - p) ++ [] = cs.drop p
    rw [List.append_nil, ← List.length_drop, List.take_length]
  | cons qd rest' ih =>
    intro p ds hchain hmem
    obtain ⟨q, ds2⟩ := qd
    have hpq : p ≤ q := (List.chain'_cons.mp hchain).1
    have ihr := ih q ds2 (List.Chain'.tail hchain)
      (fun pd h => hmem pd (List.mem_cons_of_mem _ h))
    show (cs.drop p).take (q - p) ++ joinBodies (buildSecs cs ((q, ds2) :: rest'))
      = cs.drop p
    rw [ihr]
    have h2 : cs.drop q = (cs.drop p).drop (q - p) := by
      rw [List.drop_drop]
      congr 1
      omega
    rw [h2, List.take_append_drop]

/-- C9 (amended): the body recorded for each section runs from the START
of its own heading match to the start of the next heading match (or the
end of the document for the last section): the stored body INCLUDES the
section's own heading line. Every detected heading position carries a
real heading match, consecutive positions are at least three apart, each
recorded body begins with the three hashes of its own heading, and the
bodies tile the document contiguously from the first heading position to
the end of the document. -/
theorem C9_section_bodies :
    (∀ cs p ds q ds2 l, buildSecs cs ((p, ds) :: (q, ds2) :: l)
        = (String.mk ds, (cs.drop p).take (q - p)) :: buildSecs cs ((q, ds2) :: l))
    ∧ (∀ cs p ds, buildSecs cs ((p, ds) :: [])
        = (String.mk ds, (cs.drop p).take (cs.length - p)) :: [])
    ∧ (∀ cs, sectionsOf cs = buildSecs cs (findHeadings cs))
    ∧ (∀ cs pd, pd ∈ findHeadings cs →
        ∃ r, matchHeadingAt (cs.drop pd.1) = some (pd.2, r))
    ∧ (∀ cs, List.Chain' (fun a b : Nat × List Char => a.1 + 3 ≤ b.1)
        (findHeadings cs))
    ∧ (∀ cs sb, sb ∈ sectionsOf cs → ∃ t, sb.2 = '#' :: '#' :: '#' :: t)
    ∧ (∀ cs p ds rest, findHeadings cs = (p, ds) :: rest →
        joinBodies (sectionsOf cs) = cs.drop p) := by
  have hspec : ∀ cs : List Char,
      (∀ pd ∈ findHeadings cs,
          0 ≤ pd.1 ∧ pd.1 + 3 ≤ cs.length
          ∧ ∃ r, matchHeadingAt (cs.drop pd.1) = some (pd.2, r))
      ∧ List.Chain' (fun a b : Nat × List Char => a.1 + 3 ≤ b.1)
          (findHeadings cs) := by
    intro cs
    exact findHeadingsAux_spec cs (cs.length + 1) cs 0 true (List.drop_zero cs).symm
  refine ⟨fun cs p ds q ds2 l => rfl, fun cs p ds => rfl, fun cs => rfl, ?_, ?_, ?_, ?_⟩
  · intro cs pd hpd
    exact ((hspec cs).1 pd hpd).2.2
  · intro cs
    exact (hspec cs).2
  · intro cs sb hsb
    exact buildSecs_mem_shape cs (findHeadings cs) (hspec cs).2
      (fun pd h => ⟨((hspec cs).1 pd h).2.1, ((hspec cs).1 pd h).2.2⟩) sb hsb
  · intro cs p ds rest heq
    have hchain : List.Chain' (fun a b : Nat × List Char => a.1 ≤ b.1)
        ((p, ds) :: rest) := by
      rw [← heq]
      exact List.Chain'.imp (fun a b h => by omega) (hspec cs).2
    have hmem : ∀ pd ∈ (p, ds) :: rest, pd.1 ≤ cs.length := by
      intro pd h
      rw [← heq] at h
      have := ((hspec cs).1 pd h).2.1
      omega
    show joinBodies (buildSecs cs (findHeadings cs)) = cs.drop p
    rw [heq]
    exact buildSecs_join cs rest p ds hchain hmem

theorem C9_section_bodies_witness :
    (∃ r, matchHeadingAt ((("### 1. A\nx\n### 2. B\ny").data).drop 0)
        = some ((("1").data), r))
    ∧ joinBodies (sectionsOf ("### 1. A\nx\n### 2. B\ny").data)
        = (("### 1. A\nx\n### 2. B\ny").data).drop 0 := by
  obtain ⟨c1, c2, c3, c4, c5, c6, c7⟩ := C9_section_bodies
  refine ⟨c4 (("### 1. A\nx\n### 2. B\ny").data) (0, ("1").data) (by decide), ?_⟩
  exact c7 (("### 1. A\nx\n### 2. B\ny").data) 0 (("1").data)
    ((11, ("2").data) :: []) (by decide)

/-- C9 counterexample: on "### 1. A\nx\n### 2. B\ny" the body stored for
section 1 is "### 1. A\nx\n" — heading line included — and not the
heading-excluded "x\n" the claim describes. -/
theorem C9_counterexample :
    sectionsOf ("### 1. A\nx\n### 2. B\ny").data
      = ("1", ("### 1. A\nx\n").data) :: ("2", ("### 2. B\ny").data) :: []
    ∧ secGet (sectionsOf ("### 1. A\nx\n### 2. B\ny").data) "1"
        = ("### 1. A\nx\n").data
    ∧ ¬ (secGet (sectionsOf ("### 1. A\nx\n### 2. B\ny").data) "1"
        = ("x\n").data) := by
  refine ⟨by decide, by decide, by decide⟩

end Axs
